import Mathlib

/-!
Shallow embedding of the snark-coordinator service (src/src/main.rs):
the worker lifecycle state machine, the worker registry, the stats
query engine, and the lease store with its reaper, together with
theorems settling the specification claims.

Machine integers (`u16`, `u64`, `usize`) are modelled as `Nat`: the code
performs no arithmetic that can overflow at the sizes involved (the only
arithmetic is `Instant + Duration` and `min`). `Instant` is modelled as a
`Nat` tick count. `HashMap` is modelled as an association list with
first-match lookup; the reachable maps never hold a duplicate key.
`&mut self -> bool` methods are modelled as `Option`-returning functions
(`none` = the method returned `false`, in which case the source code
provably leaves `self` untouched).
-/

namespace SnarkCoordinator

/-- Embeds `enum SnarkWorkerJobGetError` from src/src/main.rs. -/
inductive SnarkWorkerJobGetError where
  | NoAvailableJob : SnarkWorkerJobGetError
  | Other (error : String) : SnarkWorkerJobGetError
deriving DecidableEq, Repr

/-- Embeds `enum SnarkWorkerStatsPut` from src/src/main.rs: the incoming
stats events. -/
inductive SnarkWorkerStatsPut where
  | Register (time : Nat)
  | JobGetInit (time : Nat)
  | JobGetError (time : Nat)
      (job_get_node_received_t : Option Nat)
      (job_get_node_request_work_init_t : Option Nat)
      (job_get_node_request_work_success_t : Option Nat)
      (error : SnarkWorkerJobGetError)
  | JobGetSuccess (time : Nat)
      (job_get_node_received_t : Option Nat)
      (job_get_node_request_work_init_t : Option Nat)
      (job_get_node_request_work_success_t : Option Nat)
      (ids : String)
  | WorkCreateError (time : Nat) (ids : String) (error : String)
  | WorkCreateSuccess (time : Nat) (ids : String)
  | WorkSubmitError (time : Nat)
      (work_submit_node_received_t : Option Nat)
      (work_submit_node_add_work_init_t : Option Nat)
      (work_submit_node_add_work_success_t : Option Nat)
      (ids : String) (error : String)
  | WorkSubmitSuccess (time : Nat)
      (work_submit_node_received_t : Option Nat)
      (work_submit_node_add_work_init_t : Option Nat)
      (work_submit_node_add_work_success_t : Option Nat)
      (ids : String)
deriving DecidableEq, Repr

/-- Embeds `enum SnarkWorkerState` from src/src/main.rs: the lifecycle
snapshots, each later variant accreting the earlier variants' fields. -/
inductive SnarkWorkerState where
  | Registered (registered_t : Nat)
  | JobGetPending (job_get_init_t : Nat)
  | JobGetError (job_get_init_t : Nat)
      (job_get_node_received_t : Option Nat)
      (job_get_node_request_work_init_t : Option Nat)
      (job_get_node_request_work_success_t : Option Nat)
      (job_get_error_t : Nat)
      (error : SnarkWorkerJobGetError)
  | WorkCreatePending (job_get_init_t : Nat)
      (job_get_node_received_t : Option Nat)
      (job_get_node_request_work_init_t : Option Nat)
      (job_get_node_request_work_success_t : Option Nat)
      (job_get_success_t : Nat)
      (ids : String)
  | WorkCreateError (job_get_init_t : Nat)
      (job_get_node_received_t : Option Nat)
      (job_get_node_request_work_init_t : Option Nat)
      (job_get_node_request_work_success_t : Option Nat)
      (job_get_success_t : Nat)
      (work_create_error_t : Nat)
      (ids : String) (error : String)
  | WorkSubmitPending (job_get_init_t : Nat)
      (job_get_node_received_t : Option Nat)
      (job_get_node_request_work_init_t : Option Nat)
      (job_get_node_request_work_success_t : Option Nat)
      (job_get_success_t : Nat)
      (work_create_success_t : Nat)
      (ids : String)
  | WorkSubmitError (job_get_init_t : Nat)
      (job_get_node_received_t : Option Nat)
      (job_get_node_request_work_init_t : Option Nat)
      (job_get_node_request_work_success_t : Option Nat)
      (job_get_success_t : Nat)
      (work_create_success_t : Nat)
      (work_submit_error_t : Nat)
      (ids : String) (error : String)
  | WorkSubmitSuccess (job_get_init_t : Nat)
      (job_get_node_received_t : Option Nat)
      (job_get_node_request_work_init_t : Option Nat)
      (job_get_node_request_work_success_t : Option Nat)
      (job_get_success_t : Nat)
      (work_create_success_t : Nat)
      (work_submit_node_received_t : Option Nat)
      (work_submit_node_add_work_init_t : Option Nat)
      (work_submit_node_add_work_success_t : Option Nat)
      (work_submit_success_t : Nat)
      (ids : String)
deriving DecidableEq, Repr

/-- Embeds `SnarkWorkerState::init`. -/
def SnarkWorkerState.init (time : Nat) : SnarkWorkerState :=
  .JobGetPending time

/-- Embeds `SnarkWorkerState::start_time`. -/
def SnarkWorkerState.start_time : SnarkWorkerState → Nat
  | .Registered registered_t => registered_t
  | .JobGetPending job_get_init_t => job_get_init_t
  | .JobGetError job_get_init_t _ _ _ _ _ => job_get_init_t
  | .WorkCreatePending job_get_init_t _ _ _ _ _ => job_get_init_t
  | .WorkCreateError job_get_init_t _ _ _ _ _ _ _ => job_get_init_t
  | .WorkSubmitPending job_get_init_t _ _ _ _ _ _ => job_get_init_t
  | .WorkSubmitError job_get_init_t _ _ _ _ _ _ _ _ => job_get_init_t
  | .WorkSubmitSuccess job_get_init_t _ _ _ _ _ _ _ _ _ _ => job_get_init_t

/-- Embeds `SnarkWorkerState::end_time`. -/
def SnarkWorkerState.end_time : SnarkWorkerState → Nat
  | .Registered registered_t => registered_t
  | .JobGetPending job_get_init_t => job_get_init_t
  | .JobGetError _ _ _ _ job_get_error_t _ => job_get_error_t
  | .WorkCreatePending _ _ _ _ job_get_success_t _ => job_get_success_t
  | .WorkCreateError _ _ _ _ _ work_create_error_t _ _ => work_create_error_t
  | .WorkSubmitPending _ _ _ _ _ work_create_success_t _ => work_create_success_t
  | .WorkSubmitError _ _ _ _ _ _ work_submit_error_t _ _ => work_submit_error_t
  | .WorkSubmitSuccess _ _ _ _ _ _ _ _ _ work_submit_success_t _ => work_submit_success_t

/-- Embeds `SnarkWorkerState::apply`. The Rust method mutates `self` and
returns `bool`; here `some s` models the `true` return with `self`
updated to `s`, and `none` models the `false` return, on whose every path
the source leaves `self` untouched (each `return false` fires before the
`*self = ...` assignment). -/
def SnarkWorkerState.apply (s : SnarkWorkerState) (v : SnarkWorkerStatsPut) :
    Option SnarkWorkerState :=
  match s, v with
  | .JobGetPending job_get_init_t,
    .JobGetError time job_get_node_received_t job_get_node_request_work_init_t
      job_get_node_request_work_success_t error =>
      some (.JobGetError job_get_init_t job_get_node_received_t
        job_get_node_request_work_init_t job_get_node_request_work_success_t
        time error)
  | .JobGetPending job_get_init_t,
    .JobGetSuccess time job_get_node_received_t job_get_node_request_work_init_t
      job_get_node_request_work_success_t ids =>
      some (.WorkCreatePending job_get_init_t job_get_node_received_t
        job_get_node_request_work_init_t job_get_node_request_work_success_t
        time ids)
  | .WorkCreatePending job_get_init_t job_get_node_received_t
      job_get_node_request_work_init_t job_get_node_request_work_success_t
      job_get_success_t expected_ids,
    .WorkCreateError time ids error =>
      if ids = expected_ids then
        some (.WorkCreateError job_get_init_t job_get_node_received_t
          job_get_node_request_work_init_t job_get_node_request_work_success_t
          job_get_success_t time ids error)
      else none
  | .WorkCreatePending job_get_init_t job_get_node_received_t
      job_get_node_request_work_init_t job_get_node_request_work_success_t
      job_get_success_t expected_ids,
    .WorkCreateSuccess time ids =>
      if ids = expected_ids then
        some (.WorkSubmitPending job_get_init_t job_get_node_received_t
          job_get_node_request_work_init_t job_get_node_request_work_success_t
          job_get_success_t time ids)
      else none
  | .WorkSubmitPending job_get_init_t job_get_node_received_t
      job_get_node_request_work_init_t job_get_node_request_work_success_t
      job_get_success_t work_create_success_t expected_ids,
    .WorkSubmitError time _ _ _ ids error =>
      if ids = expected_ids then
        some (.WorkSubmitError job_get_init_t job_get_node_received_t
          job_get_node_request_work_init_t job_get_node_request_work_success_t
          job_get_success_t work_create_success_t time ids error)
      else none
  | .WorkSubmitPending job_get_init_t job_get_node_received_t
      job_get_node_request_work_init_t job_get_node_request_work_success_t
      job_get_success_t work_create_success_t expected_ids,
    .WorkSubmitSuccess time work_submit_node_received_t
      work_submit_node_add_work_init_t work_submit_node_add_work_success_t ids =>
      if ids = expected_ids then
        some (.WorkSubmitSuccess job_get_init_t job_get_node_received_t
          job_get_node_request_work_init_t job_get_node_request_work_success_t
          job_get_success_t work_create_success_t work_submit_node_received_t
          work_submit_node_add_work_init_t work_submit_node_add_work_success_t
          time ids)
      else none
  | _, _ => none

/-- Embeds the `Opts` fields that the core logic reads (`struct Opts`):
default and maximum lease timeout in seconds, and the maximum lock-key
length in bytes. -/
structure Opts where
  default_timeout : Nat
  max_timeout : Nat
  max_key_len : Nat
deriving DecidableEq, Repr

/-- Outcome of `lock_job_put`, mirroring the three HTTP responses:
`400` key-too-long, `201` newly acquired, `200` already held. -/
inductive LockJobResult where
  | keyTooLong (max found : Nat)
  | acquired
  | alreadyHeld
deriving DecidableEq, Repr

/-- First-match association-list lookup, modelling `HashMap` lookup
(`entry` occupancy); reachable maps never hold a duplicate key. -/
def lookup : List (String × Nat) → String → Option Nat
  | [], _ => none
  | (k, t) :: rest, key => if k = key then some t else lookup rest key

/-- Embeds the `lock_job_put` handler body: reject over-long keys before
touching the map, clamp the timeout by `min(requested-or-default,
max_timeout)`, insert `now + timeout_s` on a vacant key, and leave an
occupied key untouched. -/
def lock_job_put (opts : Opts) (kv : List (String × Nat)) (now : Nat)
    (key : String) (timeout : Option Nat) : List (String × Nat) × LockJobResult :=
  if key.utf8ByteSize > opts.max_key_len then
    (kv, .keyTooLong opts.max_key_len key.utf8ByteSize)
  else
    let timeout_s := min (timeout.getD opts.default_timeout) opts.max_timeout
    match lookup kv key with
    | none => (kv ++ [(key, now + timeout_s)], .acquired)
    | some _ => (kv, .alreadyHeld)

/-- Embeds one iteration of the reaper task in `main`:
`kv.retain(|_, t| *t > now)`. -/
def reaper_tick (kv : List (String × Nat)) (now : Nat) : List (String × Nat) :=
  kv.filter (fun p => decide (now < p.2))

/-- The worker registry: `HashMap<String, VecDeque<SnarkWorkerState>>`
modelled as an association list (front of the inner list = front of the
deque, i.e. the most recent snapshot). -/
abbrev Registry := List (String × List SnarkWorkerState)

/-- First-match lookup in the registry. -/
def Registry.find : Registry → String → Option (List SnarkWorkerState)
  | [], _ => none
  | (k, h) :: rest, id => if k = id then some h else Registry.find rest id

/-- Insert a fresh binding; only called on keys `Registry.find` misses. -/
def Registry.insert (reg : Registry) (id : String) (h : List SnarkWorkerState) :
    Registry :=
  (id, h) :: reg

/-- Replace the history bound to `id`, leaving every other binding as is. -/
def Registry.set : Registry → String → List SnarkWorkerState → Registry
  | [], _, _ => []
  | (k, h0) :: rest, id, h =>
    if k = id then (k, h) :: rest else (k, h0) :: Registry.set rest id h

/-- Outcome of `worker_stats_put`, mirroring the HTTP responses: `200`
with the allocated id (`Register`), plain `200`, `400` registration
exhaustion, `400` unknown worker (diagnostic carries the request and a
`None` state), `400` invalid transition (diagnostic carries the stored
history and the request). -/
inductive StatsPutResult where
  | registered (id : String)
  | ok
  | exhausted (worker_id : String)
  | unknownWorker (req : SnarkWorkerStatsPut)
  | invalidTransition (state : List SnarkWorkerState) (req : SnarkWorkerStatsPut)
deriving DecidableEq, Repr

/-- Embeds the `Register` arm of `worker_stats_put`: the Rust
`for i in 1..4096` loop, scanning `{worker_id}_{i}` from `i` with the
given iteration budget left. -/
def registerFrom (stats : Registry) (worker_id : String) (time : Nat) :
    Nat → Nat → Registry × StatsPutResult
  | _, 0 => (stats, .exhausted worker_id)
  | i, fuel + 1 =>
    let id := worker_id ++ "_" ++ toString i
    match Registry.find stats id with
    | none =>
      (Registry.insert stats id [SnarkWorkerState.Registered time], .registered id)
    | some _ => registerFrom stats worker_id time (i + 1) fuel

/-- Embeds the `worker_stats_put` handler body: `Register` runs the id
scan; otherwise a vacant `worker_id` accepts only `JobGetInit` (creating
a one-snapshot history); an occupied `worker_id` pushes a fresh initial
snapshot on `JobGetInit` and otherwise applies the event to the front
snapshot, rejecting without mutation when `apply` refuses (an empty
history short-circuits to `200` via `unwrap_or(false)`). -/
def worker_stats_put (stats : Registry) (worker_id : String)
    (req : SnarkWorkerStatsPut) : Registry × StatsPutResult :=
  match req with
  | .Register time => registerFrom stats worker_id time 1 4095
  | _ =>
    match Registry.find stats worker_id with
    | none =>
      match req with
      | .JobGetInit time =>
        (Registry.insert stats worker_id [SnarkWorkerState.init time], .ok)
      | _ => (stats, .unknownWorker req)
    | some v =>
      match req with
      | .JobGetInit time =>
        (Registry.set stats worker_id (SnarkWorkerState.init time :: v), .ok)
      | _ =>
        match v with
        | [] => (stats, .ok)
        | front :: rest =>
          match SnarkWorkerState.apply front req with
          | some front2 => (Registry.set stats worker_id (front2 :: rest), .ok)
          | none => (stats, .invalidTransition v req)

/-- Embeds the per-history window scan of `worker_stats_get`:
`skip_while(end_t_filter < end_time)` then
`take_while(start_time >= start_t_filter)`. -/
def filterStates (states : List SnarkWorkerState) (from_t to_t : Option Nat) :
    List SnarkWorkerState :=
  (states.dropWhile (fun v =>
      match to_t with
      | some f => decide (f < v.end_time)
      | none => false)).takeWhile (fun v =>
      match from_t with
      | some f => decide (f ≤ v.start_time)
      | none => true)

/-- Embeds the `worker_stats_get` handler body: split the optional
comma-delimited worker filter, keep the instances whose id it contains
(all of them when absent), and scan each kept history through
`filterStates`. -/
def worker_stats_get (stats : Registry) (workers : Option String)
    (from_t to_t : Option Nat) : List (String × List SnarkWorkerState) :=
  let workers_filter := workers.map (fun s => s.splitOn ",")
  (stats.filter (fun p =>
      match workers_filter with
      | some f => f.contains p.1
      | none => true)).map (fun p => (p.1, filterStates p.2 from_t to_t))

/-- Event-variant test used to phrase the registry claims. -/
def SnarkWorkerStatsPut.isRegister : SnarkWorkerStatsPut → Bool
  | .Register _ => true
  | _ => false

/-- Event-variant test used to phrase the registry claims. -/
def SnarkWorkerStatsPut.isJobGetInit : SnarkWorkerStatsPut → Bool
  | .JobGetInit _ => true
  | _ => false

/-- Spec-side window predicate for the amended query claim: the snapshot
ends no later than the to-bound and starts no earlier than the
from-bound, each bound vacuous when absent. -/
def inWindow (from_t to_t : Option Nat) (v : SnarkWorkerState) : Bool :=
  (match to_t with
   | some f => decide (v.end_time ≤ f)
   | none => true) &&
  (match from_t with
   | some f => decide (f ≤ v.start_time)
   | none => true)

/-- Invariant of the registry: every stored history is non-empty. -/
def Registry.allNonempty (reg : Registry) : Prop :=
  ∀ p ∈ reg, p.2 ≠ ([] : List SnarkWorkerState)

/-- Spec-side transcription of the claim C1 transition table: which
snapshot/event pairs are accepted, with the exact-string `ids` check:
`JobGetError` and `JobGetSuccess` from `JobGetPending`;
`WorkCreateError`/`WorkCreateSuccess` from `WorkCreatePending` and
`WorkSubmitError`/`WorkSubmitSuccess` from `WorkSubmitPending`, each
only when the event's `ids` equals the established `ids`; nothing
else. -/
def specAccepts : SnarkWorkerState → SnarkWorkerStatsPut → Bool
  | .JobGetPending _, .JobGetError _ _ _ _ _ => true
  | .JobGetPending _, .JobGetSuccess _ _ _ _ _ => true
  | .WorkCreatePending _ _ _ _ _ eids, .WorkCreateError _ ids _ => ids = eids
  | .WorkCreatePending _ _ _ _ _ eids, .WorkCreateSuccess _ ids => ids = eids
  | .WorkSubmitPending _ _ _ _ _ _ eids, .WorkSubmitError _ _ _ _ ids _ => ids = eids
  | .WorkSubmitPending _ _ _ _ _ _ eids, .WorkSubmitSuccess _ _ _ _ ids => ids = eids
  | _, _ => false

/-- Claim C1: `apply` accepts exactly the transitions of the spec's
table — the accepted snapshot/event pairs are precisely those of
`specAccepts` (so every other pair, including any event against a
`Registered` or terminal snapshot and any later event whose `ids`
differs from the established one by exact string comparison, is
rejected), and each accepted pair produces exactly the claimed successor
snapshot: `JobGetError`/`WorkCreatePending` from `JobGetPending`,
`WorkCreateError`/`WorkSubmitPending` from `WorkCreatePending`, and
`WorkSubmitError`/`WorkSubmitSuccess` from `WorkSubmitPending`. -/
theorem C1_apply_transition_table :
    (∀ s v, (SnarkWorkerState.apply s v).isSome = specAccepts s v) ∧
    (∀ t0 time a b c err,
        SnarkWorkerState.apply (.JobGetPending t0) (.JobGetError time a b c err) =
          some (.JobGetError t0 a b c time err)) ∧
    (∀ t0 time a b c ids,
        SnarkWorkerState.apply (.JobGetPending t0) (.JobGetSuccess time a b c ids) =
          some (.WorkCreatePending t0 a b c time ids)) ∧
    (∀ t0 a b c t1 eids time ids err,
        SnarkWorkerState.apply (.WorkCreatePending t0 a b c t1 eids)
            (.WorkCreateError time ids err) =
          if ids = eids then some (.WorkCreateError t0 a b c t1 time ids err)
          else none) ∧
    (∀ t0 a b c t1 eids time ids,
        SnarkWorkerState.apply (.WorkCreatePending t0 a b c t1 eids)
            (.WorkCreateSuccess time ids) =
          if ids = eids then some (.WorkSubmitPending t0 a b c t1 time ids)
          else none) ∧
    (∀ t0 a b c t1 t2 eids time d e f ids err,
        SnarkWorkerState.apply (.WorkSubmitPending t0 a b c t1 t2 eids)
            (.WorkSubmitError time d e f ids err) =
          if ids = eids then some (.WorkSubmitError t0 a b c t1 t2 time ids err)
          else none) ∧
    (∀ t0 a b c t1 t2 eids time d e f ids,
        SnarkWorkerState.apply (.WorkSubmitPending t0 a b c t1 t2 eids)
            (.WorkSubmitSuccess time d e f ids) =
          if ids = eids then some (.WorkSubmitSuccess t0 a b c t1 t2 d e f time ids)
          else none) ∧
    (∀ t v, SnarkWorkerState.apply (.Registered t) v = none) := by
  refine ⟨?_, ?_, ?_, ?_, ?_, ?_, ?_, ?_⟩
  · intro s v
    cases s <;> cases v <;>
      simp only [SnarkWorkerState.apply, specAccepts, Option.isSome] <;>
      (try split) <;> simp_all
  · intro t0 time a b c err; rfl
  · intro t0 time a b c ids; rfl
  · intro t0 a b c t1 eids time ids err; rfl
  · intro t0 a b c t1 eids time ids; rfl
  · intro t0 a b c t1 t2 eids time d e f ids err; rfl
  · intro t0 a b c t1 t2 eids time d e f ids; rfl
  · intro t v; cases v <;> rfl

/-- Keys absent from an association list do not look up. -/
lemma lookup_eq_none_of_not_mem_keys (l : List (String × Nat)) (key : String)
    (h : key ∉ l.map Prod.fst) : lookup l key = none := by
  induction l with
  | nil => rfl
  | cons p rest ih =>
    obtain ⟨k, t⟩ := p
    simp only [List.map_cons, List.mem_cons, not_or] at h
    have hk : ¬ (k = key) := fun hkk => h.1 hkk.symm
    simp only [lookup, if_neg hk]
    exact ih h.2

/-- A key appended to a list it is absent from looks up to its new value. -/
lemma lookup_append_self (l : List (String × Nat)) (key : String) (v : Nat)
    (h : lookup l key = none) : lookup (l ++ [(key, v)]) key = some v := by
  induction l with
  | nil => simp [lookup]
  | cons p rest ih =>
    obtain ⟨k, t⟩ := p
    by_cases hk : k = key
    · simp [lookup, hk] at h
    · simp only [List.cons_append, lookup, if_neg hk] at h ⊢
      exact ih h

/-- After a reap at `now`, a key whose (unique) entry expired at or
before `now` no longer looks up. -/
lemma lookup_reaper_tick_eq_none (kv : List (String × Nat)) (now : Nat)
    (key : String) (e : Nat) (hnd : (kv.map Prod.fst).Nodup)
    (hl : lookup kv key = some e) (he : e ≤ now) :
    lookup (reaper_tick kv now) key = none := by
  induction kv with
  | nil => simp [lookup] at hl
  | cons p rest ih =>
    obtain ⟨k, t⟩ := p
    simp only [List.map_cons, List.nodup_cons] at hnd
    by_cases hk : k = key
    · have ht : t = e := by simpa [lookup, hk] using hl
      have hcond : ¬ (now < t) := Nat.not_lt.mpr (ht ▸ he)
      simp only [reaper_tick, List.filter_cons, decide_eq_true_eq, if_neg hcond]
      apply lookup_eq_none_of_not_mem_keys
      intro hmem
      exact (hk ▸ hnd.1)
        (List.map_subset Prod.fst (List.filter_subset' _) hmem)
    · have hl2 : lookup rest key = some e := by simpa [lookup, hk] using hl
      have ihr := ih hnd.2 hl2
      by_cases hc : now < t
      · simpa [reaper_tick, List.filter_cons, hc, lookup, hk] using ihr
      · simpa [reaper_tick, List.filter_cons, hc] using ihr

/-- Claim C3: `lock_job_put` rejects an over-long key with the
key-too-long error and an unchanged map, for every requested timeout;
otherwise the effective ttl is `min(requested-or-default, max_timeout)`,
an absent key is inserted with expiry `now + ttl` and reported acquired,
a present key is reported already held with the map (and so the existing
expiry) untouched, and two immediate acquires of the same key yield
acquired then already-held. -/
theorem C3_lock_try_acquire (opts : Opts) (kv : List (String × Nat)) (now : Nat)
    (key : String) (timeout : Option Nat) :
    (key.utf8ByteSize > opts.max_key_len →
        lock_job_put opts kv now key timeout =
          (kv, .keyTooLong opts.max_key_len key.utf8ByteSize)) ∧
    (key.utf8ByteSize ≤ opts.max_key_len →
      (lookup kv key = none →
          lock_job_put opts kv now key timeout =
            (kv ++ [(key, now + min (timeout.getD opts.default_timeout) opts.max_timeout)],
             .acquired)) ∧
      (∀ e, lookup kv key = some e →
          lock_job_put opts kv now key timeout = (kv, .alreadyHeld)) ∧
      (lookup kv key = none → ∀ now2 timeout2,
          (lock_job_put opts (lock_job_put opts kv now key timeout).1
              now2 key timeout2).2 = .alreadyHeld)) := by
  constructor
  · intro hlen
    simp [lock_job_put, hlen]
  · intro hlen
    refine ⟨?_, ?_, ?_⟩
    · intro hnone
      simp [lock_job_put, Nat.not_lt.mpr hlen, hnone]
    · intro e hsome
      simp [lock_job_put, Nat.not_lt.mpr hlen, hsome]
    · intro hnone now2 timeout2
      have h1 : (lock_job_put opts kv now key timeout).1 =
          kv ++ [(key, now + min (timeout.getD opts.default_timeout) opts.max_timeout)] := by
        simp [lock_job_put, Nat.not_lt.mpr hlen, hnone]
      rw [h1]
      have he := lookup_append_self kv key
        (now + min (timeout.getD opts.default_timeout) opts.max_timeout) hnone
      simp [lock_job_put, Nat.not_lt.mpr hlen, he]

/-- Witness for C3 at a concrete input: an empty map acquires key `k`
with the default 60-second ttl, and an immediate repeat is already
held. -/
theorem C3_lock_try_acquire_witness :
    lock_job_put ⟨60, 300, 100⟩ [] 0 "k" none = ([("k", 60)], .acquired) ∧
    (lock_job_put ⟨60, 300, 100⟩ (lock_job_put ⟨60, 300, 100⟩ [] 0 "k" none).1
        1 "k" none).2 = .alreadyHeld := by
  have h := C3_lock_try_acquire ⟨60, 300, 100⟩ [] 0 "k" none
  refine ⟨?_, (h.2 (by decide)).2.2 (by decide) 1 none⟩
  have h2 := (h.2 (by decide)).1 (by decide)
  simpa using h2

/-- Claim C8: a reaper tick keeps exactly the entries whose expiry is
strictly in the future (so it removes exactly those at or before `now`),
and after the reap an expired key acquires again. -/
theorem C8_reaper_removes_expired (kv : List (String × Nat)) (now : Nat) :
    (∀ k e, (k, e) ∈ reaper_tick kv now ↔ ((k, e) ∈ kv ∧ now < e)) ∧
    (∀ (opts : Opts) (now2 : Nat) (key : String) (timeout : Option Nat) (e : Nat),
        (kv.map Prod.fst).Nodup →
        lookup kv key = some e → e ≤ now →
        key.utf8ByteSize ≤ opts.max_key_len →
        (lock_job_put opts (reaper_tick kv now) now2 key timeout).2 = .acquired) := by
  constructor
  · intro k e
    simp [reaper_tick, List.mem_filter]
  · intro opts now2 key timeout e hnd hl he hlen
    have hnone := lookup_reaper_tick_eq_none kv now key e hnd hl he
    simp [lock_job_put, Nat.not_lt.mpr hlen, hnone]

/-- Witness for C8 at a concrete input: a key that expired at 5 is gone
after a reap at 10, and the next acquire succeeds. -/
theorem C8_reaper_removes_expired_witness :
    ("k", 5) ∉ reaper_tick [("k", 5)] 10 ∧
    (lock_job_put ⟨60, 300, 100⟩ (reaper_tick [("k", 5)] 10) 11 "k" none).2 =
      .acquired := by
  constructor
  · intro h
    exact absurd (((C8_reaper_removes_expired [("k", 5)] 10).1 "k" 5).mp h).2 (by decide)
  · exact (C8_reaper_removes_expired [("k", 5)] 10).2 ⟨60, 300, 100⟩ 11 "k" none 5
      (by decide) (by decide) (by decide) (by decide)

/-- Counterexample to claim C9: key `k` is present with expiry 5, the
current instant is 10 (so the expiry has passed), yet `lock_job_put`
reports already-held, not acquired — lookups never lazily evict. -/
theorem C9_counterexample :
    lookup [("k", 5)] "k" = some 5 ∧ (5 : Nat) ≤ 10 ∧
    (lock_job_put ⟨60, 300, 100⟩ [("k", 5)] 10 "k" none).2 ≠ .acquired := by
  decide

/-- Claim C9 as amended: a key present in the lease map is reported
already held regardless of its expiry instant — an expired key becomes
free only once a reaper tick has removed it, not at the acquire path. -/
theorem C9_amended_present_key_already_held (opts : Opts)
    (kv : List (String × Nat)) (now : Nat) (key : String)
    (timeout : Option Nat) (e : Nat)
    (hlen : key.utf8ByteSize ≤ opts.max_key_len)
    (hfound : lookup kv key = some e) :
    lock_job_put opts kv now key timeout = (kv, .alreadyHeld) := by
  simp [lock_job_put, Nat.not_lt.mpr hlen, hfound]

/-- Witness for the amended C9 at a concrete input: the expired-but-held
key of the counterexample is reported already held. -/
theorem C9_amended_present_key_already_held_witness :
    lock_job_put ⟨60, 300, 100⟩ [("k", 5)] 10 "k" none = ([("k", 5)], .alreadyHeld) :=
  C9_amended_present_key_already_held ⟨60, 300, 100⟩ [("k", 5)] 10 "k" none 5
    (by decide) (by decide)

/-- The register scan either leaves the registry unchanged and reports
exhaustion, or inserts a single fresh `Registered` history. -/
lemma registerFrom_cases (stats : Registry) (name : String) (time : Nat) :
    ∀ fuel i, registerFrom stats name time i fuel = (stats, .exhausted name) ∨
      ∃ id2, registerFrom stats name time i fuel =
        (Registry.insert stats id2 [SnarkWorkerState.Registered time],
         .registered id2) := by
  intro fuel
  induction fuel with
  | zero => intro i; exact Or.inl rfl
  | succ n ih =>
    intro i
    cases hfind : Registry.find stats (name ++ "_" ++ toString i) with
    | none =>
      exact Or.inr ⟨name ++ "_" ++ toString i, by simp [registerFrom, hfind]⟩
    | some v =>
      simpa [registerFrom, hfind] using ih (i + 1)

/-- The register scan never reports an unknown worker. -/
lemma registerFrom_ne_unknown {stats : Registry} {name : String} {time fuel i : Nat}
    {stats2 : Registry} {r : SnarkWorkerStatsPut} :
    registerFrom stats name time i fuel ≠ (stats2, .unknownWorker r) := by
  rcases registerFrom_cases stats name time fuel i with hc | ⟨id2, hc⟩ <;>
    rw [hc] <;> simp

/-- The register scan never reports an invalid transition. -/
lemma registerFrom_ne_invalid {stats : Registry} {name : String} {time fuel i : Nat}
    {stats2 : Registry} {h : List SnarkWorkerState} {r : SnarkWorkerStatsPut} :
    registerFrom stats name time i fuel ≠ (stats2, .invalidTransition h r) := by
  rcases registerFrom_cases stats name time fuel i with hc | ⟨id2, hc⟩ <;>
    rw [hc] <;> simp

/-- Replacing the history of a present key makes it look up to the
replacement. -/
lemma Registry.find_set_self (reg : Registry) (id : String)
    (h0 h : List SnarkWorkerState) (hf : Registry.find reg id = some h0) :
    Registry.find (Registry.set reg id h) id = some h := by
  induction reg with
  | nil => simp [Registry.find] at hf
  | cons p rest ih =>
    obtain ⟨k, v⟩ := p
    by_cases hk : k = id
    · simp [Registry.set, Registry.find, hk]
    · simp only [Registry.set, Registry.find, if_neg hk] at hf ⊢
      exact ih hf

/-- Claim C2: whenever `worker_stats_put` rejects a stats event — with
the unknown-worker error or the invalid-transition error (which covers
ids mismatches) — the returned registry is exactly the input registry
(front snapshot untouched, no history entry gained), and the error
carries the rejected event together with the current state: `none` for
an unknown worker, the stored history (whose front snapshot refuses the
event) for an invalid transition. -/
theorem C2_rejection_unchanged (stats : Registry) (id : String) (req : SnarkWorkerStatsPut) :
    (∀ stats2 r, worker_stats_put stats id req = (stats2, .unknownWorker r) →
        stats2 = stats ∧ r = req ∧ Registry.find stats id = none) ∧
    (∀ stats2 h r, worker_stats_put stats id req = (stats2, .invalidTransition h r) →
        stats2 = stats ∧ r = req ∧ Registry.find stats id = some h ∧ h ≠ [] ∧
        ∀ front rest, h = front :: rest →
          SnarkWorkerState.apply front req = none) := by
  constructor
  · intro stats2 r hput
    unfold worker_stats_put at hput
    split at hput
    · exact absurd hput registerFrom_ne_unknown
    · split at hput
      · split at hput <;> simp_all
      · split at hput
        · simp_all
        · split at hput
          · simp_all
          · split at hput <;> simp_all
  · intro stats2 h r hput
    unfold worker_stats_put at hput
    split at hput
    · exact absurd hput registerFrom_ne_invalid
    · split at hput
      · split at hput <;> simp_all
      · split at hput
        · simp_all
        · split at hput
          · simp_all
          · split at hput
            · simp_all
            · rename_i happ
              simp_all
              obtain ⟨hs, hv, hr⟩ := hput
              subst hv
              refine ⟨by simp, ?_⟩
              intro front2 rest2 heq2
              injection heq2 with h1 h2
              subst h1
              exact happ

/-- Witness for C2 at concrete inputs: a `WorkCreateSuccess` for an
unknown worker, and a `JobGetSuccess` against a `Registered` front
snapshot. -/
theorem C2_rejection_unchanged_witness :
    (([] : Registry) = [] ∧
      (SnarkWorkerStatsPut.WorkCreateSuccess 3 "a") = .WorkCreateSuccess 3 "a" ∧
      Registry.find [] "w" = none) ∧
    ([("w", [SnarkWorkerState.Registered 5])] : Registry) =
        [("w", [SnarkWorkerState.Registered 5])] ∧
      (SnarkWorkerStatsPut.JobGetSuccess 6 none none none "a") =
        .JobGetSuccess 6 none none none "a" ∧
      Registry.find [("w", [SnarkWorkerState.Registered 5])] "w" =
        some [SnarkWorkerState.Registered 5] ∧
      ([SnarkWorkerState.Registered 5] : List SnarkWorkerState) ≠ [] ∧
      ∀ front rest, ([SnarkWorkerState.Registered 5] : List SnarkWorkerState) = front :: rest →
        SnarkWorkerState.apply front (.JobGetSuccess 6 none none none "a") = none := by
  constructor
  · exact (C2_rejection_unchanged [] "w" (.WorkCreateSuccess 3 "a")).1 []
      (.WorkCreateSuccess 3 "a") (by decide)
  · exact (C2_rejection_unchanged [("w", [SnarkWorkerState.Registered 5])] "w"
      (.JobGetSuccess 6 none none none "a")).2
      [("w", [SnarkWorkerState.Registered 5])] [SnarkWorkerState.Registered 5]
      (.JobGetSuccess 6 none none none "a") (by decide)

/-- Claim C4: for a known worker, `JobGetInit` always succeeds — a fresh
`JobGetPending` snapshot carrying the event's time is pushed onto the
front of the stored history and every prior entry stays behind it
unchanged. -/
theorem C4_job_get_init_prepends (stats : Registry) (id : String) (h : List SnarkWorkerState)
    (time : Nat) (hfind : Registry.find stats id = some h) :
    worker_stats_put stats id (.JobGetInit time) =
      (Registry.set stats id (SnarkWorkerState.JobGetPending time :: h), .ok) ∧
    Registry.find (worker_stats_put stats id (.JobGetInit time)).1 id =
      some (SnarkWorkerState.JobGetPending time :: h) := by
  have h1 : worker_stats_put stats id (.JobGetInit time) =
      (Registry.set stats id (SnarkWorkerState.JobGetPending time :: h), .ok) := by
    simp [worker_stats_put, hfind, SnarkWorkerState.init]
  exact ⟨h1, by rw [h1]; exact Registry.find_set_self stats id h _ hfind⟩

/-- Witness for C4 at a concrete input: `JobGetInit` on a worker whose
history holds one terminal-free `Registered` cycle. -/
theorem C4_job_get_init_prepends_witness :
    worker_stats_put [("w", [SnarkWorkerState.Registered 5])] "w" (.JobGetInit 9) =
      (Registry.set [("w", [SnarkWorkerState.Registered 5])] "w"
        (SnarkWorkerState.JobGetPending 9 :: [SnarkWorkerState.Registered 5]), .ok) ∧
    Registry.find (worker_stats_put [("w", [SnarkWorkerState.Registered 5])] "w"
        (.JobGetInit 9)).1 "w" =
      some (SnarkWorkerState.JobGetPending 9 :: [SnarkWorkerState.Registered 5]) :=
  C4_job_get_init_prepends [("w", [SnarkWorkerState.Registered 5])] "w"
    [SnarkWorkerState.Registered 5] 9 (by decide)

/-- Claim C6: for a worker id with no history, `JobGetInit` creates a
history whose single entry is the initial `JobGetPending` snapshot at
the event's time, and any other non-`Register` event is rejected with
the unknown-worker error, creating nothing. -/
theorem C6_unknown_worker (stats : Registry) (id : String)
    (hfind : Registry.find stats id = none) :
    (∀ time, worker_stats_put stats id (.JobGetInit time) =
        (Registry.insert stats id [SnarkWorkerState.JobGetPending time], .ok)) ∧
    (∀ req, req.isRegister = false → req.isJobGetInit = false →
        worker_stats_put stats id req = (stats, .unknownWorker req)) := by
  constructor
  · intro time
    simp [worker_stats_put, hfind, SnarkWorkerState.init]
  · intro req hr hj
    cases req <;> simp_all [worker_stats_put, SnarkWorkerStatsPut.isRegister,
      SnarkWorkerStatsPut.isJobGetInit]

/-- Witness for C6 at concrete inputs on the empty registry. -/
theorem C6_unknown_worker_witness :
    (worker_stats_put [] "w" (.JobGetInit 4) =
      (Registry.insert [] "w" [SnarkWorkerState.JobGetPending 4], .ok)) ∧
    (worker_stats_put [] "w" (.WorkSubmitSuccess 9 none none none "a") =
      ([], .unknownWorker (.WorkSubmitSuccess 9 none none none "a"))) := by
  constructor
  · exact (C6_unknown_worker [] "w" (by decide)).1 4
  · exact (C6_unknown_worker [] "w" (by decide)).2 (.WorkSubmitSuccess 9 none none none "a")
      (by decide) (by decide)

/-- The register scan returns the first free candidate identifier. -/
lemma registerFrom_stops_at_first_free (stats : Registry) (name : String)
    (time : Nat) : ∀ fuel i k, i ≤ k → k < i + fuel →
      Registry.find stats (name ++ "_" ++ toString k) = none →
      (∀ j, i ≤ j → j < k →
        (Registry.find stats (name ++ "_" ++ toString j)).isSome) →
      registerFrom stats name time i fuel =
        (Registry.insert stats (name ++ "_" ++ toString k)
            [SnarkWorkerState.Registered time],
         .registered (name ++ "_" ++ toString k)) := by
  intro fuel
  induction fuel with
  | zero => intro i k hik hklt _ _; omega
  | succ n ih =>
    intro i k hik hklt hfree hbusy
    by_cases hk : k = i
    · subst hk
      simp [registerFrom, hfree]
    · have hi : i < k := lt_of_le_of_ne hik (Ne.symm hk)
      obtain ⟨v, hv⟩ := Option.isSome_iff_exists.mp (hbusy i le_rfl hi)
      simp only [registerFrom, hv]
      exact ih (i + 1) k hi (by omega) hfree (fun j hj1 hj2 => hbusy j (by omega) hj2)

/-- The register scan reports exhaustion when every candidate in its
range is taken. -/
lemma registerFrom_exhausted_of_all_taken (stats : Registry) (name : String)
    (time : Nat) : ∀ fuel i,
      (∀ j, i ≤ j → j < i + fuel →
        (Registry.find stats (name ++ "_" ++ toString j)).isSome) →
      registerFrom stats name time i fuel = (stats, .exhausted name) := by
  intro fuel
  induction fuel with
  | zero => intro i _; rfl
  | succ n ih =>
    intro i hbusy
    obtain ⟨v, hv⟩ := Option.isSome_iff_exists.mp (hbusy i le_rfl (by omega))
    simp only [registerFrom, hv]
    exact ih (i + 1) (fun j h1 h2 => hbusy j (by omega) (by omega))

/-- Claim C5: `Register` scans `name_1 .. name_4095` in increasing
order, allocates the first identifier absent from the registry with a
history of exactly one `Registered` snapshot at the given time, and if
every candidate is taken it fails with the exhaustion error naming the
worker name, leaving the registry unchanged. -/
theorem C5_register_first_free (stats : Registry) (name : String) (time : Nat) :
    (∀ i, 1 ≤ i → i ≤ 4095 →
        Registry.find stats (name ++ "_" ++ toString i) = none →
        (∀ j, 1 ≤ j → j < i →
            (Registry.find stats (name ++ "_" ++ toString j)).isSome) →
        worker_stats_put stats name (.Register time) =
          (Registry.insert stats (name ++ "_" ++ toString i)
              [SnarkWorkerState.Registered time],
           .registered (name ++ "_" ++ toString i))) ∧
    ((∀ i, 1 ≤ i → i ≤ 4095 →
        (Registry.find stats (name ++ "_" ++ toString i)).isSome) →
      worker_stats_put stats name (.Register time) = (stats, .exhausted name)) := by
  constructor
  · intro i h1 h2 hfree hbusy
    show registerFrom stats name time 1 4095 = _
    exact registerFrom_stops_at_first_free stats name time 4095 1 i h1 (by omega)
      hfree (fun j hj1 hj2 => hbusy j hj1 hj2)
  · intro hbusy
    show registerFrom stats name time 1 4095 = _
    exact registerFrom_exhausted_of_all_taken stats name time 4095 1
      (fun j hj1 hj2 => hbusy j hj1 (by omega))

/-- Witness for C5: two registrations of the fresh name `w` yield `w_1`
then `w_2`. -/
theorem C5_register_first_free_witness :
    worker_stats_put [] "w" (.Register 7) =
      ([("w_1", [SnarkWorkerState.Registered 7])], .registered "w_1") ∧
    worker_stats_put [("w_1", [SnarkWorkerState.Registered 7])] "w" (.Register 8) =
      ([("w_2", [SnarkWorkerState.Registered 8]),
        ("w_1", [SnarkWorkerState.Registered 7])], .registered "w_2") := by
  constructor
  · have h := (C5_register_first_free [] "w" 7).1 1 (by decide) (by decide) (by decide)
      (by intro j hj1 hj2; omega)
    exact h.trans (by decide)
  · have h := (C5_register_first_free [("w_1", [SnarkWorkerState.Registered 7])] "w" 8).1 2
      (by decide) (by decide) (by decide)
      (by intro j hj1 hj2
          have hj : j = 1 := by omega
          subst hj
          decide)
    exact h.trans (by decide)

/-- Every `worker_stats_put` result registry is the input registry, the
input plus one singleton history, or the input with one history replaced
by a cons. -/
lemma worker_stats_put_registry_shape (stats : Registry) (id : String)
    (req : SnarkWorkerStatsPut) :
    (worker_stats_put stats id req).1 = stats ∨
    (∃ id2 x, (worker_stats_put stats id req).1 = Registry.insert stats id2 [x]) ∨
    (∃ x rest, (worker_stats_put stats id req).1 =
      Registry.set stats id (x :: rest)) := by
  cases req
  case Register time =>
    rcases registerFrom_cases stats id time 4095 1 with hc | ⟨id2, hc⟩
    · exact Or.inl (by show (registerFrom stats id time 1 4095).1 = stats; rw [hc])
    · exact Or.inr (Or.inl ⟨id2, _,
        by show (registerFrom stats id time 1 4095).1 = _; rw [hc]⟩)
  case JobGetInit time =>
    simp only [worker_stats_put]
    split
    · exact Or.inr (Or.inl ⟨id, _, rfl⟩)
    · exact Or.inr (Or.inr ⟨_, _, rfl⟩)
  all_goals (
    simp only [worker_stats_put]
    split
    · exact Or.inl rfl
    · split
      · exact Or.inl rfl
      · split
        · exact Or.inr (Or.inr ⟨_, _, rfl⟩)
        · exact Or.inl rfl)

/-- Entries of `Registry.set` come from the original list or carry the
replacement history. -/
lemma Registry.mem_set (reg : Registry) (id : String)
    (h : List SnarkWorkerState) (p : String × List SnarkWorkerState)
    (hp : p ∈ Registry.set reg id h) : p ∈ reg ∨ p.2 = h := by
  induction reg with
  | nil => simp [Registry.set] at hp
  | cons q rest ih =>
    obtain ⟨k, v⟩ := q
    by_cases hk : k = id
    · simp only [Registry.set, if_pos hk] at hp
      rcases List.mem_cons.mp hp with rfl | hmem
      · exact Or.inr rfl
      · exact Or.inl (List.mem_cons_of_mem _ hmem)
    · simp only [Registry.set, if_neg hk] at hp
      rcases List.mem_cons.mp hp with rfl | hmem
      · exact Or.inl (List.mem_cons_self _ _)
      · rcases ih hmem with h1 | h2
        · exact Or.inl (List.mem_cons_of_mem _ h1)
        · exact Or.inr h2

/-- Inserting a non-empty history preserves the non-emptiness
invariant. -/
lemma allNonempty_insert (reg : Registry) (id : String) (x : SnarkWorkerState)
    (rest : List SnarkWorkerState) (h : Registry.allNonempty reg) :
    Registry.allNonempty (Registry.insert reg id (x :: rest)) := by
  intro p hp
  rcases List.mem_cons.mp hp with rfl | hmem
  · simp
  · exact h p hmem

/-- Replacing a history by a non-empty one preserves the non-emptiness
invariant. -/
lemma allNonempty_set (reg : Registry) (id : String) (x : SnarkWorkerState)
    (rest : List SnarkWorkerState) (h : Registry.allNonempty reg) :
    Registry.allNonempty (Registry.set reg id (x :: rest)) := by
  intro p hp
  rcases Registry.mem_set reg id _ p hp with hmem | hp2
  · exact h p hmem
  · rw [hp2]; simp

/-- Claim C10: the empty registry satisfies the every-history-non-empty
invariant and every `worker_stats_put` operation preserves it —
histories are only created as singletons, `JobGetInit` only prepends,
event application replaces the front element, and nothing removes an
entry — so the event-application path always finds a front snapshot. -/
theorem C10_histories_nonempty (stats : Registry) (id : String) (req : SnarkWorkerStatsPut) :
    Registry.allNonempty ([] : Registry) ∧
    (Registry.allNonempty stats →
      Registry.allNonempty (worker_stats_put stats id req).1) := by
  constructor
  · intro p hp; cases hp
  · intro hne
    rcases worker_stats_put_registry_shape stats id req with hs | ⟨id2, x, hs⟩ |
      ⟨x, rest, hs⟩ <;> rw [hs]
    · exact hne
    · exact allNonempty_insert _ _ _ _ hne
    · exact allNonempty_set _ _ _ _ hne

/-- Witness for C10 on the empty registry and a concrete event. -/
theorem C10_histories_nonempty_witness :
    Registry.allNonempty ([] : Registry) ∧
    Registry.allNonempty (worker_stats_put [] "w" (.JobGetInit 3)).1 := by
  refine ⟨(C10_histories_nonempty [] "w" (.JobGetInit 3)).1, ?_⟩
  exact (C10_histories_nonempty [] "w" (.JobGetInit 3)).2 (fun p hp => by cases hp)


/-- On a list sorted non-increasingly by `f`, dropping the too-large
prefix is the same as filtering. -/
lemma dropWhile_gt_eq_filter_of_sorted {α : Type} (f : α → Nat) (c : Nat) :
    ∀ l : List α, l.Pairwise (fun a b => f b ≤ f a) →
      l.dropWhile (fun v => decide (c < f v)) =
        l.filter (fun v => decide (f v ≤ c)) := by
  intro l
  induction l with
  | nil => intro _; rfl
  | cons a l ih =>
    intro hp
    rw [List.pairwise_cons] at hp
    by_cases hc : c < f a
    · rw [List.dropWhile_cons_of_pos (by simpa using hc),
          List.filter_cons_of_neg (by simpa using Nat.not_le.mpr hc)]
      exact ih hp.2
    · rw [List.dropWhile_cons_of_neg (by simpa using hc),
          List.filter_cons_of_pos (by simpa using Nat.not_lt.mp hc)]
      refine congrArg _ (List.filter_eq_self.mpr ?_).symm
      intro b hb
      simpa using le_trans (hp.1 b hb) (Nat.not_lt.mp hc)

/-- On a list sorted non-increasingly by `g`, taking the large-enough
prefix is the same as filtering. -/
lemma takeWhile_ge_eq_filter_of_sorted {α : Type} (g : α → Nat) (c : Nat) :
    ∀ l : List α, l.Pairwise (fun a b => g b ≤ g a) →
      l.takeWhile (fun v => decide (c ≤ g v)) =
        l.filter (fun v => decide (c ≤ g v)) := by
  intro l
  induction l with
  | nil => intro _; rfl
  | cons a l ih =>
    intro hp
    rw [List.pairwise_cons] at hp
    by_cases hc : c ≤ g a
    · rw [List.takeWhile_cons_of_pos (by simpa using hc),
          List.filter_cons_of_pos (by simpa using hc)]
      exact congrArg _ (ih hp.2)
    · rw [List.takeWhile_cons_of_neg (by simpa using hc),
          List.filter_cons_of_neg (by simpa using hc)]
      refine (List.filter_eq_nil_iff.mpr ?_).symm
      intro b hb
      simpa using Nat.lt_of_le_of_lt (hp.1 b hb) (Nat.not_le.mp hc)

/-- Taking while a constant-true predicate holds keeps the whole
list. -/
lemma takeWhile_true_eq {α : Type} (l : List α) :
    l.takeWhile (fun _ => true) = l := by
  induction l with
  | nil => rfl
  | cons a l ih => rw [List.takeWhile_cons_of_pos rfl, ih]

/-- Dropping while a constant-false predicate holds keeps the whole
list. -/
lemma dropWhile_false_eq {α : Type} (l : List α) :
    l.dropWhile (fun _ => false) = l := by
  cases l with
  | nil => rfl
  | cons a l => rw [List.dropWhile_cons_of_neg (by simp)]

/-- On a history that is time-ordered newest-first, the skip/take window
scan returns exactly the snapshots inside the window. -/
lemma filterStates_eq_filter_inWindow (states : List SnarkWorkerState)
    (from_t to_t : Option Nat)
    (hp : states.Pairwise (fun a b =>
      b.end_time ≤ a.end_time ∧ b.start_time ≤ a.start_time)) :
    filterStates states from_t to_t = states.filter (inWindow from_t to_t) := by
  have hpe : states.Pairwise (fun a b => b.end_time ≤ a.end_time) :=
    hp.imp (fun h => h.1)
  have hps : states.Pairwise (fun a b => b.start_time ≤ a.start_time) :=
    hp.imp (fun h => h.2)
  cases to_t with
  | none =>
    cases from_t with
    | none =>
      simp only [filterStates, inWindow, dropWhile_false_eq, takeWhile_true_eq]
      exact (List.filter_eq_self.mpr (fun a _ => rfl)).symm
    | some f =>
      simp only [filterStates, inWindow, dropWhile_false_eq]
      rw [takeWhile_ge_eq_filter_of_sorted SnarkWorkerState.start_time f states hps]
      exact List.filter_congr (fun a _ => by simp [inWindow])
  | some c =>
    cases from_t with
    | none =>
      simp only [filterStates, inWindow]
      rw [dropWhile_gt_eq_filter_of_sorted SnarkWorkerState.end_time c states hpe,
        takeWhile_true_eq]
      exact List.filter_congr (fun a _ => by simp [inWindow])
    | some f =>
      simp only [filterStates, inWindow]
      rw [dropWhile_gt_eq_filter_of_sorted SnarkWorkerState.end_time c states hpe,
        takeWhile_ge_eq_filter_of_sorted SnarkWorkerState.start_time f _
          (hps.filter _),
        List.filter_filter]
      exact List.filter_congr (fun a _ => by simp [inWindow, Bool.and_comm])

/-- Claim C7 as amended: the query's result holds exactly the instances
whose id passes the (comma-split) worker filter — all instances when the
filter is absent — each mapped through the window scan, and the query is
a pure function of the registry (it returns no modified registry). For
an instance whose history is time-ordered newest-first (end times and
start times non-increasing from the front), the window scan returns
exactly the contiguous snapshots with end time at most the to-bound and
start time at least the from-bound, newest first; the original claim's
window guarantee fails for histories that are not so ordered (see the
counterexample). -/
theorem C7_query_window_amended (stats : Registry) (workers : Option String)
    (from_t to_t : Option Nat) :
    (∀ id l, (id, l) ∈ worker_stats_get stats workers from_t to_t ↔
        ∃ states, (id, states) ∈ stats ∧
          (∀ wf, workers = some wf → id ∈ wf.splitOn ",") ∧
          l = filterStates states from_t to_t) ∧
    (∀ states, states.Pairwise (fun a b =>
        b.end_time ≤ a.end_time ∧ b.start_time ≤ a.start_time) →
      filterStates states from_t to_t = states.filter (inWindow from_t to_t)) := by
  constructor
  · intro id l
    constructor
    · intro hmem
      simp only [worker_stats_get, List.mem_map, List.mem_filter] at hmem
      obtain ⟨⟨k, states⟩, ⟨hin, hpred⟩, heq⟩ := hmem
      cases heq
      refine ⟨states, hin, ?_, rfl⟩
      intro wf hwf
      subst hwf
      exact List.elem_iff.mp hpred
    · rintro ⟨states, hin, hflt, rfl⟩
      simp only [worker_stats_get, List.mem_map]
      refine ⟨(id, states), List.mem_filter.mpr ⟨hin, ?_⟩, rfl⟩
      cases workers with
      | none => rfl
      | some wf => exact List.elem_iff.mpr (hflt wf rfl)
  · intro states hp
    exact filterStates_eq_filter_inWindow states from_t to_t hp



/-- Counterexample to claim C7 as stated: a registry reachable by two
`JobGetInit` puts with decreasing times holds the unsorted history
`[JobGetPending 1, JobGetPending 10]`; the query with to-bound 5 then
returns the `JobGetPending 10` snapshot, whose end time 10 exceeds the
bound — not every returned snapshot has end time at most the
to-bound. -/
theorem C7_counterexample :
    (worker_stats_put [] "w" (.JobGetInit 10)).1 =
      [("w", [SnarkWorkerState.JobGetPending 10])] ∧
    (worker_stats_put [("w", [SnarkWorkerState.JobGetPending 10])] "w"
        (.JobGetInit 1)).1 =
      [("w", [SnarkWorkerState.JobGetPending 1, SnarkWorkerState.JobGetPending 10])] ∧
    worker_stats_get
        [("w", [SnarkWorkerState.JobGetPending 1, SnarkWorkerState.JobGetPending 10])]
        none none (some 5) =
      [("w", [SnarkWorkerState.JobGetPending 1, SnarkWorkerState.JobGetPending 10])] ∧
    SnarkWorkerState.end_time (SnarkWorkerState.JobGetPending 10) = 10 ∧
    ¬ (SnarkWorkerState.end_time (SnarkWorkerState.JobGetPending 10) ≤ 5) := by
  decide

/-- Witness for the amended C7 at concrete inputs: a sorted two-snapshot
history queried with the window [2, 12]. -/
theorem C7_query_window_amended_witness :
    ("w", filterStates
        [SnarkWorkerState.JobGetPending 10, SnarkWorkerState.JobGetPending 3]
        (some 2) (some 12)) ∈
      worker_stats_get
        [("w", [SnarkWorkerState.JobGetPending 10, SnarkWorkerState.JobGetPending 3])]
        none (some 2) (some 12) ∧
    filterStates [SnarkWorkerState.JobGetPending 10, SnarkWorkerState.JobGetPending 3]
        (some 2) (some 12) =
      List.filter (inWindow (some 2) (some 12))
        [SnarkWorkerState.JobGetPending 10, SnarkWorkerState.JobGetPending 3] := by
  constructor
  · exact ((C7_query_window_amended
      [("w", [SnarkWorkerState.JobGetPending 10, SnarkWorkerState.JobGetPending 3])]
      none (some 2) (some 12)).1 "w" _).mpr
      ⟨[SnarkWorkerState.JobGetPending 10, SnarkWorkerState.JobGetPending 3],
        by decide, fun wf hwf => Option.noConfusion hwf, rfl⟩
  · exact (C7_query_window_amended [] none (some 2) (some 12)).2
      [SnarkWorkerState.JobGetPending 10, SnarkWorkerState.JobGetPending 3]
      (by decide)


end SnarkCoordinator
